import Mathlib

/-!
Verification development for the Cosmos DB adapter of the TASimulator
storage layer (lib/db/cosmosDB.js).  The JavaScript source is embedded
shallowly: pure functions become Lean functions, the chainable query
builder becomes a record with one function per method, and the external
libraries (the Node crypto module and the MongoDB client) are modelled by
explicit parameters whose contracts are stated as structure fields.
-/

set_option maxRecDepth 10000

/-! ## Scalar values

A record field holds a scalar value (string, number, boolean, null), per
the data model.  vUndefined models the JavaScript undefined value, which the
query compiler can produce when indexing past the end of an array. -/

inductive Value
  | vNum (n : Int)
  | vStr (s : String)
  | vBool (b : Bool)
  | vNull
  | vUndefined
deriving DecidableEq

/-! ## Hex encoding

Models Buffer.toString('hex') and Buffer.from(str, 'hex') from Node:
lowercase hex digits out; parsing consumes digit pairs and stops at the
first invalid pair (Node truncates rather than throwing). -/

def hexDigit (n : Nat) : Char :=
  if n < 10 then Char.ofNat (48 + n) else Char.ofNat (87 + n)

def bytesToHex : List Nat → List Char
  | [] => []
  | b :: bs => hexDigit (b / 16) :: hexDigit (b % 16) :: bytesToHex bs

def hexDigitVal (c : Char) : Option Nat :=
  if 48 ≤ c.toNat ∧ c.toNat ≤ 57 then some (c.toNat - 48)
  else if 97 ≤ c.toNat ∧ c.toNat ≤ 102 then some (c.toNat - 87)
  else if 65 ≤ c.toNat ∧ c.toNat ≤ 70 then some (c.toNat - 55)
  else none

def hexToBytes : List Char → List Nat
  | c1 :: c2 :: rest =>
    match hexDigitVal c1, hexDigitVal c2 with
    | some h, some l => (16 * h + l) :: hexToBytes rest
    | _, _ => []
  | _ => []

/-! ## JavaScript string split and join

Models String.prototype.split(sep) for a one-character separator, and
Array.prototype.join(sep). -/

def jsSplit (sep : Char) : List Char → List (List Char)
  | [] => [[]]
  | c :: rest =>
    if c = sep then [] :: jsSplit sep rest
    else
      match jsSplit sep rest with
      | [] => [[c]]
      | h :: t => (c :: h) :: t

def jsJoin (sep : Char) : List (List Char) → List Char
  | [] => []
  | [x] => x
  | x :: xs => x ++ sep :: jsJoin sep xs

/-! ## The cipher model

The source calls crypto.createCipheriv('aes-256-cbc', SECRET_KEY, iv) and
crypto.createDecipheriv with the same fixed key.  The cipher itself lives
in the Node crypto library, outside the repository, so it is modelled as
a parameter: enc maps an iv and a plaintext string to ciphertext bytes
(the utf8 conversion done by cipher.update is folded in), dec maps an iv
and ciphertext bytes to the plaintext, returning none when the library
would throw (bad padding, wrong key, truncated data).  The two contract
fields state what the library guarantees for a well-formed round trip. -/

def IV_LENGTH : Nat := 16

structure CipherModel where
  enc : List Nat → String → List Nat
  dec : List Nat → List Nat → Option String
  enc_lt : ∀ iv m b, b ∈ enc iv m → b < 256
  dec_enc : ∀ iv m, iv.length = IV_LENGTH → dec iv (enc iv m) = some m

/-! ## CosmosDB.encrypt and CosmosDB.decrypt

Direct embeddings of the two methods.  encrypt takes the freshly drawn
random iv (crypto.randomBytes(IV_LENGTH)) as an argument; its output is
iv.toString('hex') + ':' + encrypted.  decrypt returns the input
unchanged when the argument contains no colon or when anything inside
the try block fails (the catch clause). -/

def CosmosDB.encrypt (C : CipherModel) (iv : List Nat) (text : String) : String :=
  ⟨bytesToHex iv ++ ':' :: bytesToHex (C.enc iv text)⟩

def CosmosDB.decrypt (C : CipherModel) (encryptedText : String) : String :=
  if encryptedText.data.contains ':' then
    match jsSplit ':' encryptedText.data with
    | [] => encryptedText
    | ivPart :: textParts =>
      let iv := hexToBytes ivPart
      if iv.length = IV_LENGTH then
        match C.dec iv (hexToBytes (jsJoin ':' textParts)) with
        | some plain => plain
        | none => encryptedText
      else encryptedText
  else encryptedText

/-- Models the typeof-check at the top of decrypt: a non-string argument
is returned unchanged; a string goes through the string path. -/
def CosmosDB.decryptValue (C : CipherModel) (v : Value) : Value :=
  match v with
  | .vStr s => .vStr (CosmosDB.decrypt C s)
  | w => w

/-! ## A concrete cipher instance

Used to instantiate the cipher parameter in witnesses: each character is
encoded as three base-256 digits, and decoding fails when the byte count
is not a multiple of three (standing in for a padding failure). -/

def charTo3 (c : Char) : List Nat :=
  [c.toNat / 65536, c.toNat / 256 % 256, c.toNat % 256]

def bytes3ToChars : List Nat → Option (List Char)
  | [] => some []
  | a :: b :: d :: rest =>
    (bytes3ToChars rest).map (fun cs => Char.ofNat (a * 65536 + b * 256 + d) :: cs)
  | _ => none

theorem char_toNat_lt (c : Char) : c.toNat < 1114112 := by
  rcases c.valid with h | h
  · exact Nat.lt_trans h (by decide)
  · exact h.2

theorem bytes3ToChars_bind (cs : List Char) :
    bytes3ToChars (cs.flatMap charTo3) = some cs := by
  induction cs with
  | nil => rfl
  | cons c rest ih =>
    have h3 : (c :: rest).flatMap charTo3
        = c.toNat / 65536 :: c.toNat / 256 % 256 :: c.toNat % 256 :: rest.flatMap charTo3 := rfl
    rw [h3, bytes3ToChars, ih]
    have harith : c.toNat / 65536 * 65536 + c.toNat / 256 % 256 * 256 + c.toNat % 256
        = c.toNat := by omega
    show some (Char.ofNat (c.toNat / 65536 * 65536 + c.toNat / 256 % 256 * 256 + c.toNat % 256)
      :: rest) = some (c :: rest)
    rw [harith, Char.ofNat_toNat]

def trivCipher : CipherModel where
  enc := fun _ s => s.data.flatMap charTo3
  dec := fun _ bs => (bytes3ToChars bs).map (fun cs => ⟨cs⟩)
  enc_lt := by
    intro iv m b hb
    rcases List.mem_flatMap.mp hb with ⟨c, _, hc⟩
    have := char_toNat_lt c
    simp only [charTo3, List.mem_cons, List.mem_singleton] at hc
    rcases hc with h | h | h | h
    · omega
    · omega
    · omega
    · cases h
  dec_enc := by
    intro iv m _
    show Option.map (fun cs => String.mk cs) (bytes3ToChars (m.data.flatMap charTo3)) = some m
    rw [bytes3ToChars_bind]
    rfl

/-! ## Round-trip lemmas -/

theorem hexDigit_ne_colon : ∀ d < 16, hexDigit d ≠ ':' := by decide

theorem hexDigitVal_hexDigit : ∀ d < 16, hexDigitVal (hexDigit d) = some d := by decide

theorem bytesToHex_no_colon (bs : List Nat) (h : ∀ b ∈ bs, b < 256) :
    ∀ c ∈ bytesToHex bs, c ≠ ':' := by
  induction bs with
  | nil => intro c hc; cases hc
  | cons b rest ih =>
    intro c hc
    have hb : b < 256 := h b (List.mem_cons_self ..)
    simp only [bytesToHex, List.mem_cons] at hc
    rcases hc with rfl | rfl | hc
    · exact hexDigit_ne_colon _ (by omega)
    · exact hexDigit_ne_colon _ (by omega)
    · exact ih (fun x hx => h x (List.mem_cons_of_mem _ hx)) c hc

theorem hexToBytes_bytesToHex (bs : List Nat) (h : ∀ b ∈ bs, b < 256) :
    hexToBytes (bytesToHex bs) = bs := by
  induction bs with
  | nil => rfl
  | cons b rest ih =>
    have hb : b < 256 := h b (List.mem_cons_self ..)
    show hexToBytes (hexDigit (b / 16) :: hexDigit (b % 16) :: bytesToHex rest) = b :: rest
    rw [hexToBytes, hexDigitVal_hexDigit _ (by omega), hexDigitVal_hexDigit _ (by omega)]
    rw [ih (fun x hx => h x (List.mem_cons_of_mem _ hx))]
    have harith : 16 * (b / 16) + b % 16 = b := by omega
    show (16 * (b / 16) + b % 16) :: rest = b :: rest
    rw [harith]

theorem jsSplit_no_sep (sep : Char) (cs : List Char) (h : ∀ c ∈ cs, c ≠ sep) :
    jsSplit sep cs = [cs] := by
  induction cs with
  | nil => rfl
  | cons c rest ih =>
    rw [jsSplit, if_neg (h c (List.mem_cons_self ..)),
      ih (fun x hx => h x (List.mem_cons_of_mem _ hx))]

theorem jsSplit_append_sep (sep : Char) (a b : List Char) (h : ∀ c ∈ a, c ≠ sep) :
    jsSplit sep (a ++ sep :: b) = a :: jsSplit sep b := by
  induction a with
  | nil => simp [jsSplit]
  | cons c rest ih =>
    rw [List.cons_append, jsSplit, if_neg (h c (List.mem_cons_self ..)),
      ih (fun x hx => h x (List.mem_cons_of_mem _ hx))]

/-- C1: for every cipher satisfying the library contract, every 16-byte
initialization vector and every plaintext string, decrypting the output
of encrypt recovers the plaintext exactly. -/
theorem encrypt_decrypt_roundtrip (C : CipherModel) (iv : List Nat) (x : String)
    (hlen : iv.length = IV_LENGTH) (hbytes : ∀ b ∈ iv, b < 256) :
    CosmosDB.decrypt C (CosmosDB.encrypt C iv x) = x := by
  have hctb : ∀ b ∈ C.enc iv x, b < 256 := fun b hb => C.enc_lt iv x b hb
  have hivHex := bytesToHex_no_colon iv hbytes
  have hctHex := bytesToHex_no_colon (C.enc iv x) hctb
  rw [CosmosDB.encrypt, CosmosDB.decrypt]
  have hdata : (String.mk (bytesToHex iv ++ ':' :: bytesToHex (C.enc iv x))).data
      = bytesToHex iv ++ ':' :: bytesToHex (C.enc iv x) := rfl
  rw [hdata]
  have hcontains : (bytesToHex iv ++ ':' :: bytesToHex (C.enc iv x)).contains ':' = true := by
    apply List.elem_eq_true_of_mem
    exact List.mem_append_right _ (List.mem_cons_self ..)
  rw [if_pos hcontains, jsSplit_append_sep _ _ _ hivHex,
    jsSplit_no_sep _ _ hctHex]
  simp only [jsJoin, hexToBytes_bytesToHex iv hbytes, hlen,
    hexToBytes_bytesToHex _ hctb, C.dec_enc iv x hlen, if_true, eq_self_iff_true]

/-- C1 witness: the round trip evaluated at a concrete cipher instance,
a concrete all-zero 16-byte iv and the plaintext "ab". -/
theorem encrypt_decrypt_roundtrip_witness :
    CosmosDB.decrypt trivCipher (CosmosDB.encrypt trivCipher (List.replicate 16 0) "ab") = "ab" :=
  encrypt_decrypt_roundtrip trivCipher (List.replicate 16 0) "ab" (by decide)
    (by decide)

/-! ## C2: fail-open decrypt -/

/-- C2: decrypt is fail-open.  The four ways an input can fail to be a
decryptable ciphertext each return the input unchanged: a non-string
value, a string with no colon, a string whose part before the first
colon does not parse to a 16-byte iv, and a string whose payload the
decipher rejects (as a ciphertext made under a different key is).  The
function is total, so no case raises. -/
theorem decrypt_fail_open (C : CipherModel) :
    (∀ v : Value, (∀ s, v ≠ Value.vStr s) → CosmosDB.decryptValue C v = v)
    ∧ (∀ s : String, s.data.contains ':' = false → CosmosDB.decrypt C s = s)
    ∧ (∀ (s : String) (ivPart : List Char) (textParts : List (List Char)),
        jsSplit ':' s.data = ivPart :: textParts →
        (hexToBytes ivPart).length ≠ IV_LENGTH → CosmosDB.decrypt C s = s)
    ∧ (∀ (s : String) (ivPart : List Char) (textParts : List (List Char)),
        jsSplit ':' s.data = ivPart :: textParts →
        C.dec (hexToBytes ivPart) (hexToBytes (jsJoin ':' textParts)) = none →
        CosmosDB.decrypt C s = s) := by
  refine ⟨?_, ?_, ?_, ?_⟩
  · intro v hv
    cases v with
    | vStr s => exact absurd rfl (hv s)
    | vNum n => rfl
    | vBool b => rfl
    | vNull => rfl
    | vUndefined => rfl
  · intro s hs
    rw [CosmosDB.decrypt, hs]
    rfl
  · intro s ivPart textParts hsplit hlen
    rw [CosmosDB.decrypt]
    by_cases hc : s.data.contains ':' = true
    · rw [if_pos hc, hsplit]
      simp only [if_neg hlen]
    · rw [if_neg hc]
  · intro s ivPart textParts hsplit hdec
    rw [CosmosDB.decrypt]
    by_cases hc : s.data.contains ':' = true
    · rw [if_pos hc, hsplit]
      by_cases hlen : (hexToBytes ivPart).length = IV_LENGTH
      · simp only [if_pos hlen, hdec]
      · simp only [if_neg hlen]
    · rw [if_neg hc]

/-- C2 witness: the four fail-open cases evaluated concretely: a number,
a colon-free string, a string with a malformed iv part, and a well-formed
frame whose payload the concrete decipher rejects. -/
theorem decrypt_fail_open_witness :
    CosmosDB.decryptValue trivCipher (Value.vNum 7) = Value.vNum 7
    ∧ CosmosDB.decrypt trivCipher "hello" = "hello"
    ∧ CosmosDB.decrypt trivCipher "zz:aa" = "zz:aa"
    ∧ CosmosDB.decrypt trivCipher "00000000000000000000000000000000:aa"
        = "00000000000000000000000000000000:aa" := by
  refine ⟨?_, ?_, ?_, ?_⟩
  · exact (decrypt_fail_open trivCipher).1 (Value.vNum 7) (fun s h => by cases h)
  · exact (decrypt_fail_open trivCipher).2.1 "hello" (by decide)
  · exact (decrypt_fail_open trivCipher).2.2.1 "zz:aa" ['z', 'z'] [['a', 'a']]
      (by decide) (by decide)
  · exact (decrypt_fail_open trivCipher).2.2.2 "00000000000000000000000000000000:aa"
      (List.replicate 32 '0') [['a', 'a']] (by decide) (by decide)

/-! ## The query builder state

One field per property set in the CosmosQueryBuilder constructor.  A
condition is the object stored by the where-family methods: an operator
string plus a value, where the value is either a scalar or an array
(whereIn and whereBetween store arrays).  filters is the insertion-ordered
field-to-condition object; assignment to an existing key overwrites it in
place, a new key is appended. -/

inductive CondValue
  | one (v : Value)
  | many (vs : List Value)
deriving DecidableEq

structure Condition where
  op : String
  value : CondValue
deriving DecidableEq

structure CosmosQueryBuilder where
  collectionName : String
  filters : List (String × Condition)
  orConditions : List (List (String × Condition))
  orderField : Option String
  orderDirection : Int
  limitCount : Option Nat
  offsetCount : Nat
  selectFields : Option (List String)
deriving DecidableEq

/-- Models this.database.table(collectionName): a fresh builder with the
constructor defaults (orConditions only springs into existence at the
first orWhere call; an absent field and an empty list are observably the
same, so it starts empty here). -/
def CosmosDB.table (collectionName : String) : CosmosQueryBuilder :=
  { collectionName := collectionName
    filters := []
    orConditions := []
    orderField := none
    orderDirection := 1
    limitCount := none
    offsetCount := 0
    selectFields := none }

/-- JavaScript object assignment this.filters[field] = cond. -/
def setFilter (filters : List (String × Condition)) (field : String) (cond : Condition) :
    List (String × Condition) :=
  if filters.any (fun kv => kv.1 = field) then
    filters.map (fun kv => if kv.1 = field then (field, cond) else kv)
  else filters ++ [(field, cond)]

namespace CosmosQueryBuilder

/-- The three-argument form where(field, operator, value). -/
def whereCond (b : CosmosQueryBuilder) (field operator : String) (value : CondValue) :
    CosmosQueryBuilder :=
  { b with filters := setFilter b.filters field { op := operator, value := value } }

def whereIn (b : CosmosQueryBuilder) (field : String) (values : List Value) :
    CosmosQueryBuilder :=
  if 0 < values.length then
    { b with filters := setFilter b.filters field { op := "in", value := .many values } }
  else b

def whereNotIn (b : CosmosQueryBuilder) (field : String) (values : List Value) :
    CosmosQueryBuilder :=
  if 0 < values.length then
    { b with filters := setFilter b.filters field { op := "not-in", value := .many values } }
  else b

def whereBetween (b : CosmosQueryBuilder) (field : String) (min max : Value) :
    CosmosQueryBuilder :=
  { b with filters := setFilter b.filters field { op := "between", value := .many [min, max] } }

def whereNull (b : CosmosQueryBuilder) (field : String) : CosmosQueryBuilder :=
  { b with filters := setFilter b.filters field { op := "null", value := .one .vUndefined } }

def whereNotNull (b : CosmosQueryBuilder) (field : String) : CosmosQueryBuilder :=
  { b with filters := setFilter b.filters field { op := "not-null", value := .one .vUndefined } }

def whereLike (b : CosmosQueryBuilder) (field pattern : String) : CosmosQueryBuilder :=
  { b with filters := setFilter b.filters field { op := "like", value := .one (.vStr pattern) } }

/-- The three-argument form orWhere(field, operator, value): pushes a
one-entry condition object onto this.orConditions. -/
def orWhere (b : CosmosQueryBuilder) (field operator : String) (value : CondValue) :
    CosmosQueryBuilder :=
  { b with orConditions := b.orConditions ++ [[(field, { op := operator, value := value })]] }

def orderBy (b : CosmosQueryBuilder) (field direction : String) : CosmosQueryBuilder :=
  { b with orderField := some field
           orderDirection := if direction.toUpper = "DESC" then -1 else 1 }

def orderByDesc (b : CosmosQueryBuilder) (field : String) : CosmosQueryBuilder :=
  b.orderBy field "DESC"

def orderByAsc (b : CosmosQueryBuilder) (field : String) : CosmosQueryBuilder :=
  b.orderBy field "ASC"

/-- One-argument limit(count): the offset parameter defaults to null and
leaves offsetCount untouched. -/
def limit (b : CosmosQueryBuilder) (count : Nat) : CosmosQueryBuilder :=
  { b with limitCount := some count }

def take (b : CosmosQueryBuilder) (count : Nat) : CosmosQueryBuilder :=
  b.limit count

def skip (b : CosmosQueryBuilder) (offset : Nat) : CosmosQueryBuilder :=
  { b with offsetCount := offset }

end CosmosQueryBuilder

/-! ## The compiled MongoDB query

_buildMongoQuery produces a MongoDB filter object.  Each per-field entry
is one of the operator shapes the switch can emit; mErr marks the shapes
on which the JavaScript would throw while compiling (value.replace called
on a non-string for like).  orBranches is the $or array, present exactly
when orConditions is non-empty. -/

inductive MongoCond
  | mEq (v : CondValue)
  | mNe (v : CondValue)
  | mGt (v : CondValue)
  | mGte (v : CondValue)
  | mLt (v : CondValue)
  | mLte (v : CondValue)
  | mIn (v : CondValue)
  | mNin (v : CondValue)
  | mRange (lo hi : Value)
  | mRegex (pattern options : String)
  | mErr
deriving DecidableEq

structure MongoQuery where
  fields : List (String × MongoCond)
  orBranches : Option (List (List (String × MongoCond)))
deriving DecidableEq

/-- JavaScript indexing value[i] as used by the between case: an array
yields its element or undefined past the end; a string yields its i-th
character as a one-character string; any other scalar yields undefined. -/
def jsIndex (cv : CondValue) (i : Nat) : Value :=
  match cv with
  | .many vs => vs.getD i .vUndefined
  | .one (.vStr s) =>
    match s.data.get? i with
    | some ch => .vStr ⟨[ch]⟩
    | none => .vUndefined
  | .one _ => .vUndefined

/-- The like translation: value.replace(/%/g, '.*').replace(/_/g, '.').
jsReplaceAllChar models String.prototype.replace with a global
one-character regular expression and a plain replacement text. -/
def jsReplaceAllChar (target : Char) (rep : List Char) (cs : List Char) : List Char :=
  cs.flatMap (fun c => if c = target then rep else [c])

def likePattern (p : String) : String :=
  ⟨jsReplaceAllChar '_' ['.'] (jsReplaceAllChar '%' ['.', '*'] p.data)⟩

/-- The operator switch of _buildMongoQuery, for one field condition. -/
def compileCond (c : Condition) : MongoCond :=
  match c.op with
  | "=" => .mEq c.value
  | "==" => .mEq c.value
  | "!=" => .mNe c.value
  | "<>" => .mNe c.value
  | ">" => .mGt c.value
  | ">=" => .mGte c.value
  | "<" => .mLt c.value
  | "<=" => .mLte c.value
  | "in" => .mIn c.value
  | "not-in" => .mNin c.value
  | "between" => .mRange (jsIndex c.value 0) (jsIndex c.value 1)
  | "like" =>
    match c.value with
    | .one (.vStr p) => .mRegex (likePattern p) "i"
    | _ => .mErr
  | "null" => .mEq (.one .vNull)
  | "not-null" => .mNe (.one .vNull)
  | _ => .mEq c.value

/-- _buildMongoQuery.  The main loop skips the reserved field _id; the
OR loop translates only the '=' operator and silently leaves every other
condition out of its branch object. -/
def CosmosQueryBuilder.buildMongoQuery (b : CosmosQueryBuilder) : MongoQuery :=
  { fields := b.filters.filterMap (fun fc =>
      if fc.1 = "_id" then none else some (fc.1, compileCond fc.2))
    orBranches :=
      if b.orConditions.isEmpty then none
      else some (b.orConditions.map (fun oc =>
        oc.filterMap (fun fc =>
          if fc.2.op = "=" then some (fc.1, MongoCond.mEq fc.2.value) else none))) }

/-! ## Execution semantics of the compiled query

Models what the MongoDB server does with the filter object over a
collection given as a list of records.  Comparisons apply within one
type (numbers with numbers, strings with strings); $regex evaluation is
delegated to a matcher parameter rm taking the pattern, the options
string and the field text. -/

abbrev Record := List (String × Value)

abbrev RegexMatcher := String → String → String → Bool

def lookupField (r : Record) (f : String) : Option Value :=
  (r.find? (fun kv => kv.1 == f)).map (fun kv => kv.2)

def valueLe (a b : Value) : Bool :=
  match a, b with
  | .vNum m, .vNum n => decide (m ≤ n)
  | .vStr s, .vStr t => !(compare s t == Ordering.gt)
  | _, _ => false

def valueLt (a b : Value) : Bool :=
  match a, b with
  | .vNum m, .vNum n => decide (m < n)
  | .vStr s, .vStr t => compare s t == Ordering.lt
  | _, _ => false

/-- Equality match: a scalar equality also matches a missing field when
the queried value is null ({field: null} selects null-or-absent). An
array-valued equality never matches a scalar field. -/
def eqMatch (cv : CondValue) (w : Option Value) : Bool :=
  match cv, w with
  | .one v, some x => x == v
  | .one v, none => v == .vNull
  | .many _, _ => false

def inMatch (cv : CondValue) (w : Option Value) : Bool :=
  match cv, w with
  | .many vs, some x => vs.contains x
  | .many vs, none => vs.contains .vNull
  | .one _, _ => false

def condMatch (rm : RegexMatcher) (mc : MongoCond) (w : Option Value) : Bool :=
  match mc, w with
  | .mEq cv, x => eqMatch cv x
  | .mNe cv, x => !eqMatch cv x
  | .mGt (.one v), some x => valueLt v x
  | .mGt _, _ => false
  | .mGte (.one v), some x => valueLe v x
  | .mGte _, _ => false
  | .mLt (.one v), some x => valueLt x v
  | .mLt _, _ => false
  | .mLte (.one v), some x => valueLe x v
  | .mLte _, _ => false
  | .mIn cv, x => inMatch cv x
  | .mNin cv, x => !inMatch cv x
  | .mRange lo hi, some x => valueLe lo x && valueLe x hi
  | .mRange _ _, none => false
  | .mRegex p o, some (.vStr s) => rm p o s
  | .mRegex _ _, _ => false
  | .mErr, _ => false

def branchMatch (rm : RegexMatcher) (br : List (String × MongoCond)) (r : Record) : Bool :=
  br.all (fun fc => condMatch rm fc.2 (lookupField r fc.1))

def queryMatch (rm : RegexMatcher) (q : MongoQuery) (r : Record) : Bool :=
  branchMatch rm q.fields r &&
    match q.orBranches with
    | none => true
    | some bs => bs.any (fun br => branchMatch rm br r)

/-! ## The get() pipeline

cursor = find(query) [filter], then project, sort, skip (only when
offsetCount > 0), limit (only when limitCount is truthy), toArray, and a
final map decorating each document (id extraction plus row decryption);
that decoration is passed in as dec.  MongoDB applies sort before skip
and limit regardless of the call order on the cursor, and projection
per returned document, which is what the pipeline below does. -/

def typeRank : Value → Nat
  | .vUndefined => 0
  | .vNull => 1
  | .vNum _ => 2
  | .vStr _ => 3
  | .vBool _ => 4

/-- Total comparison used for sorting: MongoDB type bracketing, then the
in-type order. -/
def sortKeyLe (a b : Value) : Bool :=
  match a, b with
  | .vNum m, .vNum n => decide (m ≤ n)
  | .vStr s, .vStr t => !(compare s t == Ordering.gt)
  | .vBool x, .vBool y => !x || y
  | x, y => decide (typeRank x ≤ typeRank y)

def recLe (f : String) (dir : Int) (r1 r2 : Record) : Bool :=
  let v1 := (lookupField r1 f).getD .vNull
  let v2 := (lookupField r2 f).getD .vNull
  if dir = -1 then sortKeyLe v2 v1 else sortKeyLe v1 v2

def insertSorted (le : Record → Record → Bool) (x : Record) : List Record → List Record
  | [] => [x]
  | y :: ys => if le x y then x :: y :: ys else y :: insertSorted le x ys

def insertionSort (le : Record → Record → Bool) : List Record → List Record
  | [] => []
  | x :: xs => insertSorted le x (insertionSort le xs)

def sortedRows (b : CosmosQueryBuilder) (rows : List Record) : List Record :=
  match b.orderField with
  | some f => insertionSort (recLe f b.orderDirection) rows
  | none => rows

/-- cursor.project with the object built by _buildProjection: listed
fields are kept, and MongoDB always returns _id as well. -/
def applyProjection (b : CosmosQueryBuilder) (rows : List Record) : List Record :=
  match b.selectFields with
  | some fs => rows.map (fun r => r.filter (fun kv => kv.1 == "_id" || fs.contains kv.1))
  | none => rows

/-- The dataset as it stands after filtering, ordering and projection,
before skip and limit are applied. -/
def orderedDataset (rm : RegexMatcher) (b : CosmosQueryBuilder) (rows : List Record) :
    List Record :=
  applyProjection b (sortedRows b (rows.filter (queryMatch rm b.buildMongoQuery)))

def CosmosQueryBuilder.get (dec : Record → Record) (rm : RegexMatcher)
    (b : CosmosQueryBuilder) (rows : List Record) : List Record :=
  let s := orderedDataset rm b rows
  let skipped := if 0 < b.offsetCount then s.drop b.offsetCount else s
  let limited :=
    match b.limitCount with
    | some n => if 0 < n then skipped.take n else skipped
    | none => skipped
  limited.map dec

/-! ## Other operations cited by the claims -/

inductive DbError
  | capabilityUnsupported (msg : String)
deriving DecidableEq

/-- CosmosQueryBuilder.raw: logs a console warning and resolves with an
empty array; it never rejects. -/
def CosmosQueryBuilder.raw (b : CosmosQueryBuilder) (query : String) (params : List Value) :
    Except DbError (List Record) :=
  Except.ok []

/-- CosmosDB.query: logs a console warning and resolves with an empty
array; it never rejects. -/
def CosmosDB.query (sql : String) (params : List Value) : Except DbError (List Record) :=
  Except.ok []

/-- Observable outcome of CosmosDB.subscribe: the try branch wires a
change stream and returns a closing unsubscribe function; the catch
branch returns the empty function arrow-returned on line 615, an
unsubscribe that does nothing for a subscription that never fires. -/
inductive SubscribeResult
  | activeChangeStream
  | noopUnsubscribe
  | thrown (e : DbError)
deriving DecidableEq

/-- CosmosDB.subscribe, abstracted over whether collection.watch() and
the surrounding setup succeed (the behavior of the external MongoDB
client). -/
def CosmosDB.subscribe (watchSucceeds : Bool) : SubscribeResult :=
  if watchSucceeds then .activeChangeStream else .noopUnsubscribe

/-! ## Row decryption on the read path -/

/-- The body of the _decryptRow loop for one key: _id is skipped, string
values containing a colon are decrypted, and when decryption changed the
value and the result passes the Number() test the field is coerced to a
number.  The Number() parse of JavaScript is external, passed in as
parseNum (some n exactly when !isNaN(Number(text))). -/
def CosmosDB.decryptCell (C : CipherModel) (parseNum : String → Option Int)
    (key : String) (v : Value) : Value :=
  if key = "_id" then v
  else
    match v with
    | .vStr s =>
      if s.data.contains ':' then
        let d := CosmosDB.decrypt C s
        if d ≠ s then
          match parseNum d with
          | some n => .vNum n
          | none => .vStr d
        else .vStr d
      else .vStr s
    | w => w

def CosmosDB.decryptRow (C : CipherModel) (parseNum : String → Option Int)
    (row : Record) : Record :=
  row.map (fun kv => (kv.1, CosmosDB.decryptCell C parseNum kv.1 kv.2))

/-! ## Claim theorems -/

/-- A regex matcher instance used in concrete evaluations. -/
def rmFalse : RegexMatcher := fun _ _ _ => false

/-- C3: the OR compiler silently drops non-equality conditions.
Evaluated at the failing input orWhere('age', '>', 5): the compiled $or
array holds one empty branch object, the greater-than condition is gone,
and the compiled query matches a record with age = 0, which the dropped
condition excludes.  No CapabilityUnsupportedError is involved anywhere
in _buildMongoQuery.  This contradicts the claim that such a condition
is either translated or rejected. -/
theorem orWhere_nonequality_silently_dropped :
    ((CosmosDB.table "sensors").orWhere "age" ">" (.one (.vNum 5))).buildMongoQuery
      = { fields := [], orBranches := some [[]] }
    ∧ queryMatch rmFalse
        ((CosmosDB.table "sensors").orWhere "age" ">" (.one (.vNum 5))).buildMongoQuery
        [("age", Value.vNum 0)] = true := by
  refine ⟨?_, ?_⟩
  · rfl
  · rfl

/-- C7: when change-stream setup fails, subscribe returns the silent
noop unsubscribe handle from its catch branch instead of failing with a
CapabilityUnsupportedError or surfacing the underlying error. -/
theorem subscribe_failure_noop_handle :
    CosmosDB.subscribe false = SubscribeResult.noopUnsubscribe
    ∧ ∀ e : DbError, CosmosDB.subscribe false ≠ SubscribeResult.thrown e := by
  refine ⟨rfl, ?_⟩
  intro e h
  cases h

/-- C8: both raw-query entry points of the document driver resolve
successfully with an empty array for every SQL string and parameter
list; neither ever fails with an error value, contradicting the claimed
CapabilityUnsupportedError. -/
theorem raw_query_resolves_empty (b : CosmosQueryBuilder) (q sql : String)
    (params ps : List Value) :
    b.raw q params = Except.ok []
    ∧ CosmosDB.query sql ps = Except.ok []
    ∧ (∀ e : DbError, b.raw q params ≠ Except.error e)
    ∧ (∀ e : DbError, CosmosDB.query sql ps ≠ Except.error e) := by
  refine ⟨rfl, rfl, ?_, ?_⟩
  · intro e h
    cases h
  · intro e h
    cases h

/-- C10: whereIn and whereNotIn with an empty list add no condition: the
builder is returned unchanged, so any query built from it (here get) is
the one that would exist had the call never been made, and on a fresh
builder the compiled query after whereIn(f, []) matches every record. -/
theorem whereIn_empty_noop (b : CosmosQueryBuilder) (f : String) :
    b.whereIn f [] = b
    ∧ b.whereNotIn f [] = b
    ∧ (∀ (dec : Record → Record) (rm : RegexMatcher) (rows : List Record),
        (b.whereIn f []).get dec rm rows = b.get dec rm rows)
    ∧ (∀ (c : String) (rm : RegexMatcher) (r : Record),
        queryMatch rm ((CosmosDB.table c).whereIn f []).buildMongoQuery r = true) := by
  refine ⟨rfl, rfl, ?_, ?_⟩
  · intro dec rm rows
    rfl
  · intro c rm r
    rfl

/-- C6: the like translation replaces every percent sign with dot-star
and every underscore with a dot, leaves every other character of the
pattern untouched (no escaping of regex metacharacters), and the
compiled condition is a $regex with the case-insensitive option "i". -/
theorem like_pattern_translation (p : String) :
    compileCond { op := "like", value := .one (.vStr p) }
      = MongoCond.mRegex (likePattern p) "i"
    ∧ (likePattern p).data
      = p.data.flatMap (fun c =>
          if c = '%' then ['.', '*'] else if c = '_' then ['.'] else [c]) := by
  refine ⟨rfl, ?_⟩
  show jsReplaceAllChar '_' ['.'] (jsReplaceAllChar '%' ['.', '*'] p.data) = _
  induction p.data with
  | nil => rfl
  | cons c rest ih =>
    simp only [jsReplaceAllChar, List.flatMap_cons] at ih ⊢
    rw [List.flatMap_append, ih]
    by_cases h1 : c = '%'
    · subst h1
      rfl
    · by_cases h2 : c = '_'
      · subst h2
        rfl
      · simp [h1, h2]

/-- C5 counterexample: the claim quantifies over every field, but the
compiler skips conditions on the reserved field _id (the continue on
line 245), so whereBetween('_id', 10, 20) compiles to an empty filter
that also selects a record whose _id is 5, outside the bounds. -/
theorem between_id_field_counterexample :
    ¬ ([[("_id", Value.vNum 5)]].filter
        (queryMatch rmFalse
          (((CosmosDB.table "t").whereBetween "_id" (.vNum 10) (.vNum 20)).buildMongoQuery))
      = [[("_id", Value.vNum 5)]].filter (fun r =>
          match lookupField r "_id" with
          | some v => valueLe (.vNum 10) v && valueLe v (.vNum 20)
          | none => false)) := by
  decide

/-- C5 amended: for every field other than _id, the compiled between
filter selects exactly the records whose value v of that field satisfies
a ≤ v ≤ b, inclusive on both ends (records lacking the field are not
selected). -/
theorem between_inclusive_amended (c f : String) (a b : Value) (rm : RegexMatcher)
    (rows : List Record) (hf : f ≠ "_id") :
    rows.filter
        (queryMatch rm (((CosmosDB.table c).whereBetween f a b).buildMongoQuery))
      = rows.filter (fun r =>
          match lookupField r f with
          | some v => valueLe a v && valueLe v b
          | none => false) := by
  have hq : (((CosmosDB.table c).whereBetween f a b).buildMongoQuery)
      = { fields := [(f, MongoCond.mRange a b)], orBranches := none } := by
    simp [CosmosDB.table, CosmosQueryBuilder.whereBetween, setFilter,
      CosmosQueryBuilder.buildMongoQuery, compileCond, jsIndex, hf]
  rw [hq]
  apply List.filter_congr
  intro r _
  show (branchMatch rm [(f, MongoCond.mRange a b)] r && true) = _
  rw [Bool.and_true]
  show (condMatch rm (MongoCond.mRange a b) (lookupField r f) && true) = _
  rw [Bool.and_true]
  cases lookupField r f with
  | some v => rfl
  | none => rfl

/-- C5 amended witness: between(10, 20) on field temp over values
9, 10, 15, 20, 21 selects exactly 10, 15 and 20 — both ends included. -/
theorem between_inclusive_amended_witness :
    [[("temp", Value.vNum 9)], [("temp", Value.vNum 10)], [("temp", Value.vNum 15)],
      [("temp", Value.vNum 20)], [("temp", Value.vNum 21)]].filter
        (queryMatch rmFalse
          (((CosmosDB.table "t").whereBetween "temp" (.vNum 10) (.vNum 20)).buildMongoQuery))
      = [[("temp", Value.vNum 10)], [("temp", Value.vNum 15)], [("temp", Value.vNum 20)]] := by
  rw [between_inclusive_amended "t" "temp" (.vNum 10) (.vNum 20) rmFalse _ (by decide)]
  decide

/-- C9: on the read path, a string field (other than _id) containing a
colon is decrypted; when decryption changed the value and the decrypted
text passes the Number() test the field comes back as a number, and when
it fails that test it comes back as the decrypted string. -/
theorem decrypt_numeric_coercion (C : CipherModel) (parseNum : String → Option Int)
    (key s : String) (pre post : Record)
    (hk : key ≠ "_id") (hc : s.data.contains ':' = true)
    (hch : CosmosDB.decrypt C s ≠ s) :
    (∀ n : Int, parseNum (CosmosDB.decrypt C s) = some n →
      CosmosDB.decryptRow C parseNum (pre ++ (key, Value.vStr s) :: post)
        = CosmosDB.decryptRow C parseNum pre
          ++ (key, Value.vNum n) :: CosmosDB.decryptRow C parseNum post)
    ∧ (parseNum (CosmosDB.decrypt C s) = none →
      CosmosDB.decryptRow C parseNum (pre ++ (key, Value.vStr s) :: post)
        = CosmosDB.decryptRow C parseNum pre
          ++ (key, Value.vStr (CosmosDB.decrypt C s)) :: CosmosDB.decryptRow C parseNum post) := by
  constructor
  · intro n hp
    have hmid : CosmosDB.decryptCell C parseNum key (Value.vStr s) = Value.vNum n := by
      rw [CosmosDB.decryptCell, if_neg hk]
      show (if s.data.contains ':' = true then _ else _) = _
      rw [if_pos hc]
      show (if CosmosDB.decrypt C s ≠ s then
          match parseNum (CosmosDB.decrypt C s) with
          | some n => Value.vNum n
          | none => Value.vStr (CosmosDB.decrypt C s)
        else Value.vStr (CosmosDB.decrypt C s)) = _
      rw [if_pos hch, hp]
    simp only [CosmosDB.decryptRow, List.map_append, List.map_cons, hmid]
  · intro hp
    have hmid : CosmosDB.decryptCell C parseNum key (Value.vStr s)
        = Value.vStr (CosmosDB.decrypt C s) := by
      rw [CosmosDB.decryptCell, if_neg hk]
      show (if s.data.contains ':' = true then _ else _) = _
      rw [if_pos hc]
      show (if CosmosDB.decrypt C s ≠ s then
          match parseNum (CosmosDB.decrypt C s) with
          | some n => Value.vNum n
          | none => Value.vStr (CosmosDB.decrypt C s)
        else Value.vStr (CosmosDB.decrypt C s)) = _
      rw [if_pos hch, hp]
    simp only [CosmosDB.decryptRow, List.map_append, List.map_cons, hmid]

/-- A concrete ciphertext for the coercion witness: a 16-zero-byte iv in
hex, a colon, and the trivCipher encryption of the text "42" in hex. -/
def sampleCipherText : String := "00000000000000000000000000000000:000034000032"

/-- A concrete stand-in for the Number() test: accepts exactly "42". -/
def parseNum42 : String → Option Int := fun t => if t = "42" then some 42 else none

/-- C9 witness: a row whose temp field holds the sample ciphertext comes
back from _decryptRow with temp coerced to the number 42. -/
theorem decrypt_numeric_coercion_witness :
    CosmosDB.decryptRow trivCipher parseNum42 [("temp", Value.vStr sampleCipherText)]
      = [("temp", Value.vNum 42)] := by
  have h := decrypt_numeric_coercion trivCipher parseNum42 "temp" sampleCipherText [] []
    (by decide) (by decide) (by decide)
  have h2 := h.1 42 (by decide)
  simpa [CosmosDB.decryptRow] using h2

/-- C4: with a positive limit n and offset k, the records that get()
returns are exactly the window [k, k+n) of the ordered dataset (the
filtered, sorted, projected collection), in order: the result is the
drop-k take-n slice mapped through the per-document decoration, its
length is min n (N - k), its i-th element is the decoration of element
k+i of the ordered dataset, and it is shorter than n whenever k + n
exceeds N. -/
theorem pagination_limit_skip_window (dec : Record → Record) (rm : RegexMatcher)
    (b : CosmosQueryBuilder) (rows : List Record) (n k : Nat) (hn : 0 < n) :
    ((b.limit n).skip k).get dec rm rows
      = (((orderedDataset rm ((b.limit n).skip k) rows).drop k).take n).map dec
    ∧ (((b.limit n).skip k).get dec rm rows).length
      = min n ((orderedDataset rm ((b.limit n).skip k) rows).length - k)
    ∧ (∀ i : Nat, i < n →
        (((b.limit n).skip k).get dec rm rows)[i]?
          = ((orderedDataset rm ((b.limit n).skip k) rows)[k + i]?).map dec)
    ∧ ((orderedDataset rm ((b.limit n).skip k) rows).length < k + n →
        (((b.limit n).skip k).get dec rm rows).length < n) := by
  have hoff : ((b.limit n).skip k).offsetCount = k := rfl
  have hlim : ((b.limit n).skip k).limitCount = some n := rfl
  have hmain : ((b.limit n).skip k).get dec rm rows
      = (((orderedDataset rm ((b.limit n).skip k) rows).drop k).take n).map dec := by
    simp only [CosmosQueryBuilder.get, hoff, hlim, if_pos hn]
    by_cases hk : 0 < k
    · rw [if_pos hk]
    · rw [if_neg hk]
      have hk0 : k = 0 := by omega
      rw [hk0, List.drop_zero]
  have hlen : (((b.limit n).skip k).get dec rm rows).length
      = min n ((orderedDataset rm ((b.limit n).skip k) rows).length - k) := by
    rw [hmain, List.length_map, List.length_take, List.length_drop]
  refine ⟨hmain, hlen, ?_, ?_⟩
  · intro i hi
    rw [hmain, List.getElem?_map, List.getElem?_take_of_lt hi, List.getElem?_drop]
  · intro hN
    rw [hlen]
    omega

/-- Three sample records used by the pagination witness. -/
def sampleRows : List Record :=
  [[("temp", Value.vNum 20)], [("temp", Value.vNum 21)], [("temp", Value.vNum 22)]]

/-- C4 witness: limit(2).skip(1).get() over a three-record collection
returns exactly the records at positions 1 and 2. -/
theorem pagination_limit_skip_window_witness :
    (((CosmosDB.table "sensors").limit 2).skip 1).get (fun r => r) rmFalse sampleRows
      = [[("temp", Value.vNum 21)], [("temp", Value.vNum 22)]] := by
  have h := pagination_limit_skip_window (fun r => r) rmFalse (CosmosDB.table "sensors")
    sampleRows 2 1 (by decide)
  rw [h.1]
  decide
